import Mathlib

/-!
A shallow embedding of the core of `dezoomify.py`: pyramid geometry
(`getZoomLevels`, `getTileIndex`, tile groups and tile URLs), zoom-level
resolution, the downloader's error handling, the `jpegtran` join loop and
end-of-run cleanup.

The Python source divides integers by powers of two using float division
(lines 523-524, 358-362, 372-373, 379-380).  For the realistic range of an
IEEE double (below 2^53) division by a power of two is exact, so those
float values are embedded as exact rationals and the truncating uses
(`int(...)`, `floor(...)`, `%d` formatting) as natural-number division.
-/

namespace Dezoomify

/-- `int(ceil(a / float(b)))` for naturals `a`, `b`, as computed at
lines 372-373 and inside `getTileIndex` (exact in the double range). -/
def ceilDiv (a b : Nat) : Nat := (a + b - 1) / b

/-- Line 523: `self.width = self.maxWidth / 2 ** (self.maxZoom - self.zoomLevel - 1)`.
Python true division of an int by a power of two yields a float; its value
is this exact rational. -/
def widthAtZoom (maxWidth maxZoom zoomLevel : Nat) : ℚ :=
  (maxWidth : ℚ) / 2 ^ (maxZoom - zoomLevel - 1)

/-- Line 524: `self.height`, as `widthAtZoom`. -/
def heightAtZoom (maxHeight maxZoom zoomLevel : Nat) : ℚ :=
  (maxHeight : ℚ) / 2 ^ (maxZoom - zoomLevel - 1)

/-- Lines 195-197: the canvas is allocated with dimensions
`'%dx%d+0+0' % (self.width, self.height)`; `%d` truncates the nonnegative
float, i.e. takes its floor. -/
def canvasWidth (maxWidth maxZoom zoomLevel : Nat) : Nat :=
  ⌊widthAtZoom maxWidth maxZoom zoomLevel⌋₊

/-- Lines 195-197, the height component. -/
def canvasHeight (maxHeight maxZoom zoomLevel : Nat) : Nat :=
  ⌊heightAtZoom maxHeight maxZoom zoomLevel⌋₊

/-- Lines 346-364, `UntilerDezoomify.getTileIndex`, for a run whose selected
zoom level is `zoomLevel` (so that `self.width` and `self.height` hold the
floats set at lines 523-524):

`index = x + y * int(ceil(floor(self.width / pow(2, self.maxZoom - level - 1)) / self.tileSize))`

followed by, for `i in range(1, level + 1)`,

`index += int(ceil(floor(self.width / pow(2, self.maxZoom - i)) / self.tileSize)) * int(ceil(floor(self.height / pow(2, self.maxZoom - i)) / self.tileSize))`. -/
def getTileIndex (maxWidth maxHeight tileSize maxZoom zoomLevel level x y : Nat) : Nat :=
  x + y * ceilDiv (⌊widthAtZoom maxWidth maxZoom zoomLevel / 2 ^ (maxZoom - level - 1)⌋₊) tileSize
    + (((List.range level).map (fun j =>
        ceilDiv (⌊widthAtZoom maxWidth maxZoom zoomLevel / 2 ^ (maxZoom - (j + 1))⌋₊) tileSize *
        ceilDiv (⌊heightAtZoom maxHeight maxZoom zoomLevel / 2 ^ (maxZoom - (j + 1))⌋₊) tileSize)).sum)

/-- `getTileIndex` with the float arithmetic discharged into pure
natural-number division (see `getTileIndex_eq_nat`). -/
def getTileIndexNat (maxWidth maxHeight tileSize maxZoom zoomLevel level x y : Nat) : Nat :=
  x + y * ceilDiv (maxWidth / 2 ^ ((maxZoom - zoomLevel - 1) + (maxZoom - level - 1))) tileSize
    + (((List.range level).map (fun j =>
        ceilDiv (maxWidth / 2 ^ ((maxZoom - zoomLevel - 1) + (maxZoom - (j + 1)))) tileSize *
        ceilDiv (maxHeight / 2 ^ ((maxZoom - zoomLevel - 1) + (maxZoom - (j + 1)))) tileSize)).sum)

/-- Lines 366-384, `UntilerDezoomify.getZoomLevels`, loop body and exit
test, accumulating the per-level tile grids in loop order (before the final
`self.levels.reverse()`).  The loop has no bound in the source; `fuel`
bounds the number of iterations we are willing to unfold, and `none` means
the loop did not finish within `fuel` iterations. -/
def getZoomLevelsGo (tileSize : Nat) : Nat → Nat → Nat → Option (List (Nat × Nat))
  | _, _, 0 => none
  | w, h, fuel + 1 =>
    let widthInTiles := ceilDiv w tileSize
    let heightInTiles := ceilDiv h tileSize
    if widthInTiles = 1 ∧ heightInTiles = 1 then some [(widthInTiles, heightInTiles)]
    else
      match getZoomLevelsGo tileSize (w / 2) (h / 2) fuel with
      | none => none
      | some rest => some ((widthInTiles, heightInTiles) :: rest)

/-- Lines 366-384: the accumulated list, reversed so that index 0 is the
coarsest level (`self.levels.reverse()`). -/
def getZoomLevels (maxWidth maxHeight tileSize fuel : Nat) : Option (List (Nat × Nat)) :=
  (getZoomLevelsGo tileSize maxWidth maxHeight fuel).map List.reverse

/-- Modelled from the spec's words (spec §3 TileAddress, §4.1 `globalIndex`),
for comparison with `getTileIndex`: the count of all tiles in every level
strictly below `level`, plus `col + row * xTiles(level)`, where the tile
grids are read off a levels list as built by `getZoomLevels`. -/
def globalIndexSpec (levels : List (Nat × Nat)) (level col row : Nat) : Nat :=
  (((levels.take level).map (fun p => p.1 * p.2)).sum) + col + row * (levels.getD level (0, 0)).1

/-- Lines 508-520 of `getProperties`: pick the effective zoom level from the
requested one.  `none` models `args.zoomLevel` being absent (falsy).  The
returned Bool records whether the out-of-range warning was logged; the code
continues in every case (the fallback is non-fatal). -/
def resolveZoomLevel (requested : Option Int) (maxZoom : Nat) : Int × Bool :=
  match requested with
  | none => ((maxZoom : Int) - 1, false)
  | some z => if z < (maxZoom : Int) ∧ 0 ≤ z then (z, false) else ((maxZoom : Int) - 1, true)

/-- Line 81 of `urlConcat`: `str(arg).replace("\\", "/")`. -/
def backToForward (s : String) : String :=
  let bs : String := "\\"
  let fs : String := "/"
  s.replace bs fs

/-- Lines 83-87 of `urlConcat`: arguments after the first lose a leading
slash. -/
def slashStrip (s : String) : String :=
  let sl : String := "/"
  if s.startsWith sl then s.drop 1 else s

/-- Lines 73-89, `urlConcat`: join the arguments with forward slashes,
replacing backslashes in every argument and stripping a leading slash from
every argument after the first; zero or one argument is returned untouched. -/
def urlConcat : List String → String
  | [] => ""
  | [a] => a
  | a :: rest =>
    let sl : String := "/"
    String.intercalate sl (backToForward a :: rest.map (fun s => slashStrip (backToForward s)))

/-- Line 547: `tileGroup = tileIndex // self.tileSize`, where the index is
computed at the run's selected zoom level (line 546). -/
def tileGroup (maxWidth maxHeight tileSize maxZoom zoomLevel col row : Nat) : Nat :=
  getTileIndex maxWidth maxHeight tileSize maxZoom zoomLevel zoomLevel col row / tileSize

/-- The URL string `urlConcat(self.imageDir, 'TileGroup{g}', '{z}-{col}-{row}.jpg')`
for a given group number `grp` (lines 548-549). -/
def tileURLOfGroup (imageDir : String) (zoomLevel grp col row : Nat) : String :=
  let tg : String := "TileGroup"
  let dash : String := "-"
  let dotjpg : String := ".jpg"
  urlConcat [imageDir, tg ++ toString grp,
    toString zoomLevel ++ dash ++ toString col ++ dash ++ toString row ++ dotjpg]

/-- Lines 542-550, `UntilerDezoomify.getImageTileURL`. -/
def getImageTileURL (imageDir : String) (maxWidth maxHeight tileSize maxZoom zoomLevel col row : Nat) :
    String :=
  let tileIndex := getTileIndex maxWidth maxHeight tileSize maxZoom zoomLevel zoomLevel col row
  let grp := tileIndex / tileSize
  tileURLOfGroup imageDir zoomLevel grp col row

/-- Outcome of one tile fetch (`downloadUrl` at line 144): success, an
`urllib.error.HTTPError` (e.g. a not-found response), or any other network
failure (e.g. `urllib.error.URLError`). -/
inductive FetchOutcome where
  | ok
  | httpErr
  | netErr
deriving DecidableEq

/-- State left behind by one downloader worker (lines 138-154): which tasks
it forwarded to the join queue, how many warnings it logged, and whether it
died with an uncaught exception. -/
structure WorkerResult where
  joined : List (Nat × Nat)
  warnings : Nat
  crashed : Bool
deriving DecidableEq

/-- Lines 138-154, the `downloader` worker run alone (`-t 1`) over its task
queue in order: `queue.Empty` returns normally; a successful fetch puts the
coordinate on the join queue; `urllib.error.HTTPError` logs a warning and
drops the task; any other exception is not caught, so the worker dies and
the tasks behind it are left unprocessed. -/
def downloader (fetch : Nat × Nat → FetchOutcome) : List (Nat × Nat) → WorkerResult
  | [] => ⟨[], 0, false⟩
  | task :: rest =>
    match fetch task with
    | FetchOutcome.ok =>
      let r := downloader fetch rest
      ⟨task :: r.joined, r.warnings, r.crashed⟩
    | FetchOutcome.httpErr =>
      let r := downloader fetch rest
      ⟨r.joined, r.warnings + 1, r.crashed⟩
    | FetchOutcome.netErr => ⟨[], 0, true⟩

/-- A fetch oracle where tile (0,0) is missing on the server (HTTP 404) and
everything else succeeds. -/
def fetchOneMissing : Nat × Nat → FetchOutcome :=
  fun task => if task = (0, 0) then FetchOutcome.httpErr else FetchOutcome.ok

/-- A fetch oracle where tile (0,0) fails with a non-HTTP network error
(e.g. connection refused) and everything else would succeed. -/
def fetchNetErrFirst : Nat × Nat → FetchOutcome :=
  fun task => if task = (0, 0) then FetchOutcome.netErr else FetchOutcome.ok

/-- One `jpegtran` invocation made by the join loop of `getImage`
(lines 193-223): the initial canvas allocation (`-crop`, seeded from the
first arriving tile), a tile placement (`-drop +x+y` from buffer `src` into
buffer `dst`), or the final optimize-and-emit pass.  Buffers are the two
temp images `tmpimgs[0]`, `tmpimgs[1]`. -/
inductive JOp where
  | alloc (w h : Nat) (seed : Nat × Nat) (dest : Fin 2)
  | place (tile : Nat × Nat) (offX offY : Nat) (src dst : Fin 2)
  | emit (src : Fin 2)
deriving DecidableEq

/-- Lines 189-210, the join loop, consuming the joined tiles in order while
tracking `numJoined` and `activeTmp`: the first tile additionally allocates
the canvas into the active buffer; every tile is dropped at offset
`(col * tileSize, row * tileSize)` reading the active buffer and writing the
other one, after which the buffers toggle.  Returns the operations issued
and the final `activeTmp`. -/
def joinGo (tileSize w h : Nat) : List (Nat × Nat) → Nat → Fin 2 → List JOp × Fin 2
  | [], _, a => ([], a)
  | (c, r) :: rest, numJoined, a =>
    let next := joinGo tileSize w h rest (numJoined + 1) (a + 1)
    ((if numJoined = 0 then [JOp.alloc w h (c, r) a] else []) ++
      (JOp.place (c, r) (c * tileSize) (r * tileSize) a (a + 1) :: next.1), next.2)

/-- Lines 189-223: the full operation sequence of `getImage`'s composition,
ending with the unconditional final optimize pass (line 222) that reads the
buffer left active by the loop. -/
def getImageOps (tileSize w h : Nat) (tiles : List (Nat × Nat)) : List JOp :=
  (joinGo tileSize w h tiles 0 0).1 ++ [JOp.emit (joinGo tileSize w h tiles 0 0).2]

/-- The tile placed by a placement operation, if any. -/
def placeOf : JOp → Option (Nat × Nat)
  | JOp.place tile _ _ _ _ => some tile
  | _ => none

/-- The source buffer of a placement operation, if any. -/
def placeSrc : JOp → Option (Fin 2)
  | JOp.place _ _ _ s _ => some s
  | _ => none

/-- The alternating buffer sequence `a, a+1, a, a+1, ...` of length `n`. -/
def altSeq : Fin 2 → Nat → List (Fin 2)
  | _, 0 => []
  | a, n + 1 => a :: altSeq (a + 1) n

/-- Each `jpegtran` call paired with the exit status `subprocess.call`
returned for it.  The source discards these statuses (lines 198, 205, 223),
so the call sequence itself is a function of the tile list alone. -/
def getImageTrace (tileSize w h : Nat) (tiles : List (Nat × Nat)) (exitCodes : Nat → Int) :
    List (JOp × Int) :=
  (getImageOps tileSize w h tiles).enum.map (fun p => (p.2, exitCodes p.1))

/-- An exit-code oracle under which every external call fails. -/
def exitFail : Nat → Int := fun _ => 1

/-- Lines 161-167: one task per tile cell, `col` outer, `row` inner. -/
def taskList (xTiles yTiles : Nat) : List (Nat × Nat) :=
  (List.range xTiles).flatMap (fun c => (List.range yTiles).map (fun r => (c, r)))

/-- Lines 212-219: the end-of-run report.  `warning` carries the zoom level
named by the missing-tiles warning, when one is logged. -/
structure RunOutcome where
  numJoined : Nat
  numMissing : Nat
  warning : Option Int
deriving DecidableEq

/-- The run of `getImage` for one image, sequentialized: the downloader
drains the task queue, the join loop consumes exactly the successfully
downloaded tiles, `numMissing = xTiles * yTiles - numJoined` (line 212), the
warning names the current zoom level iff tiles are missing (lines 213-219),
and the operation list always ends with the final emit (line 222). -/
def runImage (xTiles yTiles tileSize width height : Nat) (zoomLevel : Int)
    (fetch : Nat × Nat → FetchOutcome) : RunOutcome × List JOp :=
  let joined := (downloader fetch (taskList xTiles yTiles)).joined
  let numJoined := joined.length
  let numMissing := xTiles * yTiles - numJoined
  ({ numJoined := numJoined, numMissing := numMissing,
     warning := if 0 < numMissing then some zoomLevel else none },
   getImageOps tileSize width height joined)

/-- An oracle under which every fetch succeeds. -/
def allOk : Nat × Nat → FetchOutcome := fun _ => FetchOutcome.ok

/-- Lines 280 and 286-287 of `__init__`: `self.store = args.store`, then
`if self.nodownload: self.store = True`. -/
def storeFlag (storeArg nodownloadArg : Bool) : Bool :=
  if nodownloadArg then true else storeArg

/-- What the `finally` block of `getImage` can delete. -/
inductive CleanupAction where
  | unlinkTmp (i : Fin 2)
  | removeTileDir
deriving DecidableEq

/-- Lines 225-231, the `finally` block: always unlink both temporary
images; remove the tile directory (with the staged tiles) only when
`self.store` is false. -/
def cleanup (store : Bool) : List CleanupAction :=
  [CleanupAction.unlinkTmp 0, CleanupAction.unlinkTmp 1] ++
    (if store then [] else [CleanupAction.removeTileDir])

end Dezoomify

namespace Dezoomify

theorem floor_cast_div_pow (a k : Nat) : ⌊(a : ℚ) / 2 ^ k⌋₊ = a / 2 ^ k := by
  have h2 : ((2 : ℚ) ^ k) = ((2 ^ k : Nat) : ℚ) := by push_cast; ring
  rw [h2, Nat.floor_div_nat, Nat.floor_natCast]

theorem floor_div_pow (a k e : Nat) : ⌊(a : ℚ) / 2 ^ k / 2 ^ e⌋₊ = a / 2 ^ (k + e) := by
  rw [div_div, ← pow_add, floor_cast_div_pow]

theorem getTileIndex_eq_nat (maxWidth maxHeight tileSize maxZoom zoomLevel level x y : Nat) :
    getTileIndex maxWidth maxHeight tileSize maxZoom zoomLevel level x y =
      getTileIndexNat maxWidth maxHeight tileSize maxZoom zoomLevel level x y := by
  unfold getTileIndex getTileIndexNat widthAtZoom heightAtZoom
  simp only [floor_div_pow]

/-- C3: for every selected zoom level `z`, the per-level width and height
used by the run (the truncations of the floats `self.width`, `self.height`
at their use sites) equal `fullWidth` and `fullHeight` scaled by
`2 ^ (maxZoom - z - 1)` with integer truncation. -/
theorem c3_level_dimensions (maxWidth maxHeight maxZoom z : Nat) :
    canvasWidth maxWidth maxZoom z = maxWidth / 2 ^ (maxZoom - z - 1) ∧
    canvasHeight maxHeight maxZoom z = maxHeight / 2 ^ (maxZoom - z - 1) :=
  ⟨floor_cast_div_pow maxWidth _, floor_cast_div_pow maxHeight _⟩

/-- C1 (code bug): `getTileIndex` is NOT independent of the zoom level
selected for the run.  For geometry 2679×4000, tileSize 256 (maxZoom 5,
levels `[(1,1),(2,2),(3,4),(6,8),(11,16)]`) and tile
(level 3, col 0, row 1): with zoom level 3 selected the code returns 9,
because `self.width`/`self.height` are already scaled to the selected level
and `getTileIndex` scales them again; with the finest level 4 selected it
returns 23, which is the value of the spec's pure formula. -/
theorem c1_tile_index_depends_on_selected_zoom :
    getTileIndex 2679 4000 256 5 3 3 0 1 = 9 ∧
    getTileIndex 2679 4000 256 5 4 3 0 1 = 23 ∧
    getZoomLevels 2679 4000 256 20 = some [(1, 1), (2, 2), (3, 4), (6, 8), (11, 16)] ∧
    globalIndexSpec [(1, 1), (2, 2), (3, 4), (6, 8), (11, 16)] 3 0 1 = 23 := by
  refine ⟨?_, ?_, rfl, by decide⟩
  · rw [getTileIndex_eq_nat]; decide
  · rw [getTileIndex_eq_nat]; decide

theorem getLast?_cons_some {α : Type} (a : α) :
    ∀ (l : List α) (v : α), l.getLast? = some v → (a :: l).getLast? = some v
  | [], v, h => by simp at h
  | b :: t, v, h => by rw [List.getLast?_cons_cons]; exact h

theorem getZoomLevelsGo_getLast (tileSize : Nat) :
    ∀ (fuel w h : Nat) (l : List (Nat × Nat)),
      getZoomLevelsGo tileSize w h fuel = some l → l.getLast? = some (1, 1) := by
  intro fuel
  induction fuel with
  | zero => intro w h l hl; simp [getZoomLevelsGo] at hl
  | succ n ih =>
    intro w h l hl
    rw [getZoomLevelsGo] at hl
    by_cases hc : ceilDiv w tileSize = 1 ∧ ceilDiv h tileSize = 1
    · rw [if_pos hc] at hl
      obtain ⟨rfl⟩ := Option.some_injective _ hl.symm
      simp [hc.1, hc.2]
    · rw [if_neg hc] at hl
      cases hrec : getZoomLevelsGo tileSize (w / 2) (h / 2) n with
      | none => rw [hrec] at hl; simp at hl
      | some rest =>
        rw [hrec] at hl
        obtain ⟨rfl⟩ := Option.some_injective _ hl.symm
        exact getLast?_cons_some _ rest (1, 1) (ih (w / 2) (h / 2) rest hrec)

theorem getZoomLevelsGo_stuck_zero :
    ∀ fuel, getZoomLevelsGo 1 0 0 fuel = none := by
  intro fuel
  induction fuel with
  | zero => rfl
  | succ n ih =>
    rw [getZoomLevelsGo]
    norm_num [ceilDiv]
    rw [ih]

theorem getZoomLevelsGo_stuck_zero_one :
    ∀ fuel, getZoomLevelsGo 1 0 1 fuel = none := by
  intro fuel
  cases fuel with
  | zero => rfl
  | succ n =>
    rw [getZoomLevelsGo]
    norm_num [ceilDiv]
    rw [getZoomLevelsGo_stuck_zero n]

/-- C2 (corrected): whenever the level-building loop terminates, the
reversed list's FIRST element is `(1, 1)` (index 0 is the coarsest level);
its last element is the finest level, `(11, 16)` for geometry
(2679, 4000, 256); and the loop does not terminate for every positive
geometry: for `fullWidth = 1`, `fullHeight = 2`, `tileSize = 1` it runs
forever because the halved width reaches 0, whose tile count 0 never
satisfies the 1×1 exit test. -/
theorem c2_zoom_levels_corrected :
    (∀ maxWidth maxHeight tileSize fuel levels,
      getZoomLevels maxWidth maxHeight tileSize fuel = some levels →
        levels.head? = some (1, 1)) ∧
    getZoomLevels 2679 4000 256 20 = some [(1, 1), (2, 2), (3, 4), (6, 8), (11, 16)] ∧
    (∀ fuel, getZoomLevels 1 2 1 fuel = none) := by
  refine ⟨?_, rfl, ?_⟩
  · intro maxWidth maxHeight tileSize fuel levels hl
    unfold getZoomLevels at hl
    cases hgo : getZoomLevelsGo tileSize maxWidth maxHeight fuel with
    | none => rw [hgo] at hl; simp at hl
    | some acc =>
      rw [hgo] at hl
      obtain ⟨rfl⟩ := Option.some_injective _ hl.symm
      rw [List.head?_reverse]
      exact getZoomLevelsGo_getLast tileSize fuel maxWidth maxHeight acc hgo
  · intro fuel
    unfold getZoomLevels
    cases fuel with
    | zero => rfl
    | succ n =>
      rw [getZoomLevelsGo]
      norm_num [ceilDiv]
      rw [getZoomLevelsGo_stuck_zero_one n]

/-- Witness for C2: the head of the concrete levels list, obtained from the
theorem with every hypothesis discharged at geometry (2679, 4000, 256). -/
theorem c2_zoom_levels_corrected_witness :
    ([(1, 1), (2, 2), (3, 4), (6, 8), (11, 16)] : List (Nat × Nat)).head? = some (1, 1) :=
  c2_zoom_levels_corrected.1 2679 4000 256 20 [(1, 1), (2, 2), (3, 4), (6, 8), (11, 16)] rfl

/-- Counterexample for C2 as stated: at geometry (2679, 4000, 256) the loop
terminates, but the resulting list's last element is `(11, 16)`, the finest
level, not `(1, 1)` (the claim also asserts universal termination, refuted
by `c2_zoom_levels_corrected`; fuel 100 already exceeds any halving chain
of these inputs). -/
theorem c2_zoom_levels_counterexample :
    getZoomLevels 2679 4000 256 20 = some [(1, 1), (2, 2), (3, 4), (6, 8), (11, 16)] ∧
    ([(1, 1), (2, 2), (3, 4), (6, 8), (11, 16)] : List (Nat × Nat)).getLast? = some (11, 16) ∧
    ((11, 16) : Nat × Nat) ≠ (1, 1) ∧
    getZoomLevels 1 2 1 100 = none := by
  exact ⟨rfl, by decide, by decide, rfl⟩

/-- C4: the tile group used to form the tile URL is the tile's index (as
computed by `getTileIndex` at the run's selected level) integer-divided by
`tileSize`, reused as the bucket capacity; and the group number is
non-decreasing as the tile index increases. -/
theorem c4_tile_group (imageDir : String)
    (maxWidth maxHeight tileSize maxZoom zoomLevel col row : Nat) :
    (getImageTileURL imageDir maxWidth maxHeight tileSize maxZoom zoomLevel col row =
      tileURLOfGroup imageDir zoomLevel
        (getTileIndex maxWidth maxHeight tileSize maxZoom zoomLevel zoomLevel col row / tileSize)
        col row) ∧
    (∀ col2 row2 : Nat,
      getTileIndex maxWidth maxHeight tileSize maxZoom zoomLevel zoomLevel col row ≤
        getTileIndex maxWidth maxHeight tileSize maxZoom zoomLevel zoomLevel col2 row2 →
      tileGroup maxWidth maxHeight tileSize maxZoom zoomLevel col row ≤
        tileGroup maxWidth maxHeight tileSize maxZoom zoomLevel col2 row2) :=
  ⟨rfl, fun _ _ hle => Nat.div_le_div_right hle⟩

/-- Witness for C4 at geometry (2679, 4000, 256), finest level selected:
tile (0,0) has index 65 and tile (1,0) index 66, both in group 0. -/
theorem c4_tile_group_witness :
    tileGroup 2679 4000 256 5 4 0 0 ≤ tileGroup 2679 4000 256 5 4 1 0 :=
  (c4_tile_group "base" 2679 4000 256 5 4 0 0).2 1 0
    (by rw [getTileIndex_eq_nat, getTileIndex_eq_nat]; decide)

/-- C5: zoom-level resolution (lines 508-520).  Absent request resolves to
the finest level `maxZoom - 1`; an out-of-range request falls back to the
finest level with a non-fatal warning (the function returns normally); a
valid request is used unchanged, so resolution is idempotent on valid
levels. -/
theorem c5_resolve_zoom (maxZoom : Nat) (z : Int) :
    resolveZoomLevel none maxZoom = ((maxZoom : Int) - 1, false) ∧
    (0 ≤ z → z < (maxZoom : Int) → resolveZoomLevel (some z) maxZoom = (z, false)) ∧
    ((z < 0 ∨ (maxZoom : Int) ≤ z) →
      resolveZoomLevel (some z) maxZoom = ((maxZoom : Int) - 1, true)) ∧
    (0 ≤ z → z < (maxZoom : Int) →
      resolveZoomLevel (some (resolveZoomLevel (some z) maxZoom).1) maxZoom =
        resolveZoomLevel (some z) maxZoom) := by
  refine ⟨rfl, ?_, ?_, ?_⟩
  · intro h0 hm
    simp [resolveZoomLevel, hm, h0]
  · intro hout
    have : ¬(z < (maxZoom : Int) ∧ 0 ≤ z) := by omega
    simp [resolveZoomLevel, this]
  · intro h0 hm
    simp [resolveZoomLevel, hm, h0]

/-- Witness for C5: requested level 3 of maxZoom 5 is kept; requested level
99 (out of range, maxZoom 5) falls back to the finest level 4 with a
warning. -/
theorem c5_resolve_zoom_witness :
    resolveZoomLevel (some 3) 5 = (3, false) ∧
    resolveZoomLevel (some 99) 5 = ((5 : Int) - 1, true) :=
  ⟨(c5_resolve_zoom 5 3).2.1 (by decide) (by decide),
   (c5_resolve_zoom 5 99).2.2.1 (Or.inr (by decide))⟩

theorem downloader_no_crash (fetch : Nat × Nat → FetchOutcome) :
    ∀ tasks : List (Nat × Nat), (∀ tk ∈ tasks, fetch tk ≠ FetchOutcome.netErr) →
      (downloader fetch tasks).crashed = false ∧
      (downloader fetch tasks).joined =
        tasks.filter (fun tk => decide (fetch tk = FetchOutcome.ok)) ∧
      (downloader fetch tasks).warnings =
        (tasks.filter (fun tk => decide (fetch tk = FetchOutcome.httpErr))).length := by
  intro tasks
  induction tasks with
  | nil => intro _; exact ⟨rfl, rfl, rfl⟩
  | cons t rest ih =>
    intro hall
    have ht : fetch t ≠ FetchOutcome.netErr := hall t (List.mem_cons_self t rest)
    have hrest := ih (fun tk hk => hall tk (List.mem_cons_of_mem t hk))
    cases hf : fetch t with
    | ok =>
      simp only [downloader, hf, List.filter_cons]
      simp [hf, hrest.1, hrest.2.1, hrest.2.2]
    | httpErr =>
      simp only [downloader, hf, List.filter_cons]
      simp [hf, hrest.1, hrest.2.1, hrest.2.2]
    | netErr => exact absurd hf ht

/-- C6 (corrected): a fetch that fails with an HTTP error response (e.g.
not found) is logged as a warning and its task dropped, without retry and
without failing the run, and — as long as no other kind of network failure
occurs — every remaining task is still processed, the joined tiles being
exactly the successful fetches.  (Any other network failure is NOT caught:
it kills the worker, see `c6_fetch_counterexample`.) -/
theorem c6_fetch_corrected (fetch : Nat × Nat → FetchOutcome) (tasks : List (Nat × Nat))
    (hnet : ∀ tk ∈ tasks, fetch tk ≠ FetchOutcome.netErr) :
    (downloader fetch tasks).crashed = false ∧
    (downloader fetch tasks).joined =
      tasks.filter (fun tk => decide (fetch tk = FetchOutcome.ok)) ∧
    (downloader fetch tasks).warnings =
      (tasks.filter (fun tk => decide (fetch tk = FetchOutcome.httpErr))).length :=
  downloader_no_crash fetch tasks hnet

/-- Witness for C6: tile (0,0) is missing on the server, tile (0,1)
downloads; the worker does not crash, joins exactly (0,1) and logs one
warning. -/
theorem c6_fetch_corrected_witness :
    (downloader fetchOneMissing [(0, 0), (0, 1)]).crashed = false ∧
    (downloader fetchOneMissing [(0, 0), (0, 1)]).joined =
      ([(0, 0), (0, 1)] : List (Nat × Nat)).filter
        (fun tk => decide (fetchOneMissing tk = FetchOutcome.ok)) ∧
    (downloader fetchOneMissing [(0, 0), (0, 1)]).warnings =
      (([(0, 0), (0, 1)] : List (Nat × Nat)).filter
        (fun tk => decide (fetchOneMissing tk = FetchOutcome.httpErr))).length :=
  c6_fetch_corrected fetchOneMissing [(0, 0), (0, 1)] (by decide)

/-- Counterexample for C6 as stated: a non-HTTP network failure on tile
(0,0) is not logged at any severity (no handler catches it), the worker
dies, and the remaining task (0,1) — whose fetch would succeed — is never
processed, so not every fetch failure is recoverable with the remaining
tasks still processed. -/
theorem c6_fetch_counterexample :
    (downloader fetchNetErrFirst [(0, 0), (0, 1)]).crashed = true ∧
    (downloader fetchNetErrFirst [(0, 0), (0, 1)]).joined = [] ∧
    (downloader fetchNetErrFirst [(0, 0), (0, 1)]).warnings = 0 ∧
    fetchNetErrFirst (0, 1) = FetchOutcome.ok := by
  decide

theorem joinGo_places (tileSize w h : Nat) (tiles : List (Nat × Nat)) :
    ∀ (n : Nat) (a : Fin 2), (joinGo tileSize w h tiles n a).1.filterMap placeOf = tiles := by
  induction tiles with
  | nil => intro n a; rfl
  | cons hd rest ih =>
    intro n a
    obtain ⟨c, r⟩ := hd
    by_cases hn : n = 0 <;>
      simp [joinGo, hn, placeOf, List.filterMap_append, ih]

theorem joinGo_shape (tileSize w h : Nat) (tiles : List (Nat × Nat)) :
    ∀ (n : Nat) (a : Fin 2) (tile : Nat × Nat) (ox oy : Nat) (s d : Fin 2),
      JOp.place tile ox oy s d ∈ (joinGo tileSize w h tiles n a).1 →
      ox = tile.1 * tileSize ∧ oy = tile.2 * tileSize ∧ d = s + 1 := by
  induction tiles with
  | nil => intro n a tile ox oy s d hmem; simp [joinGo] at hmem
  | cons hd rest ih =>
    intro n a tile ox oy s d hmem
    obtain ⟨c, r⟩ := hd
    by_cases hn : n = 0 <;> simp [joinGo, hn] at hmem <;>
      rcases hmem with ⟨htile, hox, hoy, hs, hd2⟩ | hmem
    · subst htile; subst hox; subst hoy; subst hs; subst hd2
      exact ⟨rfl, rfl, rfl⟩
    · exact ih 1 (a + 1) tile ox oy s d hmem
    · subst htile; subst hox; subst hoy; subst hs; subst hd2
      exact ⟨rfl, rfl, rfl⟩
    · exact ih (n + 1) (a + 1) tile ox oy s d hmem

theorem joinGo_srcs (tileSize w h : Nat) (tiles : List (Nat × Nat)) :
    ∀ (n : Nat) (a : Fin 2),
      (joinGo tileSize w h tiles n a).1.filterMap placeSrc = altSeq a tiles.length := by
  induction tiles with
  | nil => intro n a; rfl
  | cons hd rest ih =>
    intro n a
    obtain ⟨c, r⟩ := hd
    by_cases hn : n = 0 <;>
      simp [joinGo, hn, placeSrc, altSeq, List.filterMap_append, ih]

theorem joinGo_final (tileSize w h : Nat) (tiles : List (Nat × Nat)) :
    ∀ (n : Nat) (a : Fin 2),
      ((joinGo tileSize w h tiles n a).2).val = (a.val + tiles.length) % 2 := by
  induction tiles with
  | nil =>
    intro n a
    simp [joinGo, Nat.mod_eq_of_lt a.isLt]
  | cons hd rest ih =>
    intro n a
    obtain ⟨c, r⟩ := hd
    have hv : ((a + 1 : Fin 2)).val = (a.val + 1) % 2 := Fin.val_add a 1
    have h2 : a.val < 2 := a.isLt
    simp only [joinGo, List.length_cons, ih (n + 1) (a + 1), hv]
    omega

theorem getImageOps_places (tileSize w h : Nat) (tiles : List (Nat × Nat)) :
    (getImageOps tileSize w h tiles).filterMap placeOf = tiles := by
  simp [getImageOps, List.filterMap_append, placeOf, joinGo_places tileSize w h tiles 0 0]

theorem getImageOps_emit (tileSize w h : Nat) (tiles : List (Nat × Nat)) :
    JOp.emit ((joinGo tileSize w h tiles 0 0).2) ∈ getImageOps tileSize w h tiles := by
  simp [getImageOps]

/-- C8: every tile consumed by the join loop gets exactly one placement, in
consumption order, at absolute pixel offset `(col * tileSize, row * tileSize)`,
reading the active buffer and writing the other (spare) buffer; the active
buffer alternates between the two temp images on successive merges, ending
at `tiles.length % 2`. -/
theorem c8_placement (tileSize w h : Nat) (tiles : List (Nat × Nat)) :
    ((getImageOps tileSize w h tiles).filterMap placeOf = tiles) ∧
    (∀ (tile : Nat × Nat) (ox oy : Nat) (s d : Fin 2),
      JOp.place tile ox oy s d ∈ getImageOps tileSize w h tiles →
      ox = tile.1 * tileSize ∧ oy = tile.2 * tileSize ∧ d = s + 1) ∧
    ((getImageOps tileSize w h tiles).filterMap placeSrc = altSeq 0 tiles.length) ∧
    (((joinGo tileSize w h tiles 0 0).2).val = tiles.length % 2) := by
  refine ⟨getImageOps_places tileSize w h tiles, ?_, ?_, ?_⟩
  · intro tile ox oy s d hmem
    rcases List.mem_append.mp hmem with hmem | hmem
    · exact joinGo_shape tileSize w h tiles 0 0 tile ox oy s d hmem
    · simp at hmem
  · simp [getImageOps, List.filterMap_append, placeSrc, joinGo_srcs tileSize w h tiles 0 0]
  · simpa using joinGo_final tileSize w h tiles 0 0

/-- Witness for C8: in a run consuming the single tile (1, 2) with tile
size 256, its placement is at offset (256, 512), written to the buffer
other than the active one. -/
theorem c8_placement_witness :
    256 = (1, 2).1 * 256 ∧ 512 = (1, 2).2 * 256 ∧ (1 : Fin 2) = 0 + 1 :=
  (c8_placement 256 800 600 [(1, 2)]).2.1 (1, 2) 256 512 0 1 (by decide)

/-- C7 (corrected): the exit statuses of the compositor primitive calls are
discarded by the source, so the sequence of calls made — every placement
and the final optimize-and-emit included — is the same whatever statuses
the external tool returns: a failing call does not abort the current
image's composition. -/
theorem c7_compositor_corrected (tileSize w h : Nat) (tiles : List (Nat × Nat))
    (exitCodes exitCodes2 : Nat → Int) :
    ((getImageTrace tileSize w h tiles exitCodes).map Prod.fst = getImageOps tileSize w h tiles) ∧
    ((getImageTrace tileSize w h tiles exitCodes).map Prod.fst =
      (getImageTrace tileSize w h tiles exitCodes2).map Prod.fst) ∧
    (JOp.emit ((joinGo tileSize w h tiles 0 0).2) ∈
      (getImageTrace tileSize w h tiles exitCodes).map Prod.fst) := by
  have hfst : ∀ ec : Nat → Int,
      (getImageTrace tileSize w h tiles ec).map Prod.fst = getImageOps tileSize w h tiles := by
    intro ec
    unfold getImageTrace
    rw [List.map_map]
    have hcomp : (Prod.fst ∘ fun p : Nat × JOp => (p.2, ec p.1)) = Prod.snd := rfl
    rw [hcomp, List.enum_map_snd]
  refine ⟨hfst exitCodes, ?_, ?_⟩
  · rw [hfst exitCodes, hfst exitCodes2]
  · rw [hfst exitCodes]
    exact getImageOps_emit tileSize w h tiles

/-- Counterexample for C7 as stated: with every external call failing
(exit status 1), the run still issues the whole call sequence — after the
failing canvas allocation it still places the tile and still runs the final
optimize-and-emit — so a failing compositor call does not abort the current
image's composition. -/
theorem c7_compositor_counterexample :
    getImageTrace 256 100 100 [(0, 0)] exitFail =
      [(JOp.alloc 100 100 (0, 0) 0, 1), (JOp.place (0, 0) 0 0 0 1, 1), (JOp.emit 1, 1)] ∧
    (JOp.emit 1, (1 : Int)) ∈ getImageTrace 256 100 100 [(0, 0)] exitFail := by
  decide

theorem taskList_length (xTiles yTiles : Nat) : (taskList xTiles yTiles).length = xTiles * yTiles := by
  unfold taskList
  induction xTiles with
  | zero => simp
  | succ n ih =>
    rw [List.range_succ]
    simp only [List.flatMap_append, List.length_append, ih]
    simp [Nat.succ_mul]

/-- C9: at the end of a run, `numMissing = xTiles * yTiles - numJoined`
where `numJoined` counts exactly the merged placements; the warning naming
the current zoom level is emitted iff `numMissing > 0`; the final emit
operation is always present — even when a strict subset of fetch tasks
fails the run still produces an output file — and when every fetch succeeds
`numMissing = 0`. -/
theorem c9_run_outcome (xTiles yTiles tileSize w h : Nat) (zoomLevel : Int)
    (fetch : Nat × Nat → FetchOutcome) :
    ((runImage xTiles yTiles tileSize w h zoomLevel fetch).1.numMissing =
      xTiles * yTiles - (runImage xTiles yTiles tileSize w h zoomLevel fetch).1.numJoined) ∧
    ((runImage xTiles yTiles tileSize w h zoomLevel fetch).1.numJoined =
      (((runImage xTiles yTiles tileSize w h zoomLevel fetch).2.filterMap placeOf).length)) ∧
    ((runImage xTiles yTiles tileSize w h zoomLevel fetch).1.warning = some zoomLevel ↔
      0 < (runImage xTiles yTiles tileSize w h zoomLevel fetch).1.numMissing) ∧
    (∃ s : Fin 2, JOp.emit s ∈ (runImage xTiles yTiles tileSize w h zoomLevel fetch).2) ∧
    ((∀ tk ∈ taskList xTiles yTiles, fetch tk = FetchOutcome.ok) →
      (runImage xTiles yTiles tileSize w h zoomLevel fetch).1.numMissing = 0) := by
  refine ⟨rfl, ?_, ?_, ?_, ?_⟩
  · simp [runImage, getImageOps_places]
  · simp only [runImage]
    by_cases hm : 0 <
        xTiles * yTiles - ((downloader fetch (taskList xTiles yTiles)).joined).length <;>
      simp [hm]
  · exact ⟨_, getImageOps_emit tileSize w h _⟩
  · intro hall
    have hnet : ∀ tk ∈ taskList xTiles yTiles, fetch tk ≠ FetchOutcome.netErr := by
      intro tk hk
      rw [hall tk hk]
      intro hcontra
      exact FetchOutcome.noConfusion hcontra
    have hchar := downloader_no_crash fetch (taskList xTiles yTiles) hnet
    have hfil : (taskList xTiles yTiles).filter
        (fun tk => decide (fetch tk = FetchOutcome.ok)) = taskList xTiles yTiles :=
      List.filter_eq_self.mpr (fun tk hk => by simp [hall tk hk])
    simp [runImage, hchar.2.1, hfil, taskList_length]

/-- Witness for C9: a 1×2 run in which every fetch succeeds has no missing
tiles. -/
theorem c9_run_outcome_witness :
    (runImage 1 2 256 100 200 0 allOk).1.numMissing = 0 :=
  (c9_run_outcome 1 2 256 100 200 0 allOk).2.2.2.2 (by decide)

/-- C10: requesting skip-download mode (`-x` / `nodownload`) forces the
persist-tiles flag on, so end-of-run cleanup unlinks only the two scratch
buffers and never removes the staging tile directory. -/
theorem c10_nodownload_persists_tiles (storeArg : Bool) :
    storeFlag storeArg true = true ∧
    cleanup (storeFlag storeArg true) =
      [CleanupAction.unlinkTmp 0, CleanupAction.unlinkTmp 1] ∧
    CleanupAction.removeTileDir ∉ cleanup (storeFlag storeArg true) := by
  refine ⟨rfl, rfl, ?_⟩
  intro hmem
  simp [cleanup, storeFlag] at hmem

end Dezoomify
